import Mathlib

/-!
Verification development for the order-execution engine
(QueueWorker / PubSub from src/services).

The model below is a shallow embedding of the second QueueWorker in
src/unnamed/part_009 (the in-memory queue worker) together with the
PubSub wrapper in src/unnamed/part_010.  Numeric amounts are modelled
as rationals; the outcomes of the two router calls (getBestRoute and
executeSwap, up to twice per attempt) are supplied by an environment,
since the router is an external collaborator.  Database calls are
persistence-only side effects and are modelled as always succeeding.
-/

namespace OrderEngine

/-- DexType from the source types: the two venues. -/
inductive DexType
  | raydium
  | meteora
  deriving DecidableEq

/-- DexQuote from the source types. -/
structure DexQuote where
  dex : DexType
  price : ℚ
  amountOut : ℚ
  fee : ℚ
  deriving DecidableEq

/-- RoutingDecision from the source types (the reason string is dropped,
it is never read by the worker). -/
structure RoutingDecision where
  selectedDex : DexType
  selectedQuote : DexQuote
  raydiumQuote : DexQuote
  meteoraQuote : DexQuote
  deriving DecidableEq

/-- ExecutionResult from the source types.  A missing amountOut models
the case where typeof result.amountOut is not a number. -/
structure ExecutionResult where
  success : Bool
  txHash : Option String
  executedPrice : Option ℚ
  amountOut : Option ℚ
  error : Option String
  deriving DecidableEq

/-- CreateOrderRequest from the source types (orderType is dropped, it is
never read by the worker). -/
structure OrderData where
  tokenIn : String
  tokenOut : String
  amountIn : ℚ
  slippage : Option ℚ
  deriving DecidableEq

/-- A queue entry: orderId, orderData and attempts as enqueued, plus the
triedFallback flag the worker attaches to the job object (absent at
enqueue time, i.e. false). -/
structure Job where
  orderId : String
  orderData : OrderData
  attempts : ℕ
  triedFallback : Bool
  deriving DecidableEq

/-- Payload of the second routing status publication. -/
structure RoutingInfo where
  selectedDex : DexType
  raydiumPrice : ℚ
  meteoraPrice : ℚ
  deriving DecidableEq

/-- Status events published via publishStatus, with the payloads the
worker attaches. -/
inductive Event
  | routing (info : Option RoutingInfo)
  | building
  | submitted
  | confirmed (txHash : Option String) (executedPrice : Option ℚ) (amountOut : Option ℚ)
  | failed (error : String)
  | retrying (reason : String) (attemptedDex : DexType) (fallbackTried : Bool)
      (allowedSlippage : ℚ)
  deriving DecidableEq

/-- The status phase of an event. -/
inductive Phase
  | routing
  | building
  | submitted
  | confirmed
  | failed
  | retrying
  deriving DecidableEq

/-- Phase of a published event. -/
def Event.phase : Event → Phase
  | Event.routing _ => Phase.routing
  | Event.building => Phase.building
  | Event.submitted => Phase.submitted
  | Event.confirmed _ _ _ => Phase.confirmed
  | Event.failed _ => Phase.failed
  | Event.retrying _ _ _ _ => Phase.retrying

/-- How one processJob call ends: terminal confirmation, terminal failure,
or a delayed requeue of the (mutated) job. -/
inductive Outcome
  | confirmed (txHash : Option String) (executedPrice : Option ℚ) (amountOut : Option ℚ)
  | failedTerminal (attempts : ℕ)
  | requeue (job : Job) (delayMs : ℕ)
  deriving DecidableEq

/-- Observable behaviour of one processJob call: the events published in
order, the number of getBestRoute calls, the executeSwap calls made
(venue and quote passed, in order), the error caught by the catch
handler if any, and the outcome. -/
structure ProcResult where
  events : List Event
  routeCalls : ℕ
  execCalls : List (DexType × DexQuote)
  caughtError : Option String
  outcome : Outcome
  deriving DecidableEq

/-- Environment of one attempt: the result of getBestRoute, of the first
executeSwap, and of the fallback executeSwap (consulted only if the
fallback runs).  Except.error models a rejected promise. -/
structure Env where
  route : Except String RoutingDecision
  exec1 : Except String ExecutionResult
  exec2 : Except String ExecutionResult

/-- Effective slippage tolerance of the attempt (source line 116-117):
baseSlippage defaults to 0.01, grows 50 percent per prior attempt,
capped at 0.2. -/
def effSlippage (job : Job) : ℚ :=
  min (1/5) ((job.orderData.slippage.getD (1/100)) * (1 + (job.attempts : ℚ) * (1/2)))

/-- Slippage check on the primary execution result (source line 122):
violated when amountOut is not a number or is below
expectedAmountOut * (1 - effectiveSlippage). -/
def primaryViolated (rd : RoutingDecision) (result : ExecutionResult) (job : Job) : Bool :=
  match result.amountOut with
  | none => true
  | some v => decide (v < rd.selectedQuote.amountOut * (1 - effSlippage job))

/-- The alternate quote of a routing decision (source line 129). -/
def otherQuoteOf (rd : RoutingDecision) : DexQuote :=
  if rd.selectedDex = DexType.raydium then rd.meteoraQuote else rd.raydiumQuote

/-- Acceptance test for the fallback result (source lines 135-139): the
backend reported success and the amount is a number at least
otherExpected * (1 - effectiveSlippage), with the same effective
slippage as the primary check. -/
def fallbackAccepted (rd : RoutingDecision) (fb : ExecutionResult) (job : Job) : Bool :=
  fb.success &&
    (match fb.amountOut with
     | none => false
     | some w => decide ((otherQuoteOf rd).amountOut * (1 - effSlippage job) ≤ w))

/-- Error message for a reported execution failure (source line 179):
result.error is used unless it is falsy. -/
def failureMessage (result : ExecutionResult) : String :=
  match result.error with
  | some s => if s = "" then "Execution failed" else s
  | none => "Execution failed"

/-- The catch handler of processJob (source lines 181-199): increment the
attempt counter; if the budget is exhausted publish a terminal failed
event, otherwise schedule a delayed requeue of the mutated job with
exponential backoff. -/
def handleFailure (maxRetries : ℕ) (job : Job) (errMsg : String)
    (evs : List Event) (rc : ℕ) (ec : List (DexType × DexQuote)) : ProcResult :=
  let attempts' := job.attempts + 1
  let job' := { job with attempts := attempts' }
  if maxRetries ≤ attempts' then
    { events := evs ++ [Event.failed errMsg]
      routeCalls := rc
      execCalls := ec
      caughtError := some errMsg
      outcome := Outcome.failedTerminal attempts' }
  else
    { events := evs
      routeCalls := rc
      execCalls := ec
      caughtError := some errMsg
      outcome := Outcome.requeue job' (2 ^ attempts' * 1000) }

/-- Functional model of QueueWorker.processJob (source lines 87-200).
The environment supplies the router call results; database updates are
modelled as always succeeding.  Events publish in source order: routing
without payload, routing with payload, building, submitted, then the
execution branch. -/
def processJob (maxRetries : ℕ) (job : Job) (env : Env) : ProcResult :=
  match env.route with
  | Except.error e => handleFailure maxRetries job e [Event.routing none] 1 []
  | Except.ok rd =>
    let evs0 : List Event :=
      [Event.routing none,
       Event.routing (some { selectedDex := rd.selectedDex
                             raydiumPrice := rd.raydiumQuote.price
                             meteoraPrice := rd.meteoraQuote.price }),
       Event.building, Event.submitted]
    let selCall : DexType × DexQuote := (rd.selectedDex, rd.selectedQuote)
    match env.exec1 with
    | Except.error e => handleFailure maxRetries job e evs0 1 [selCall]
    | Except.ok result =>
      if result.success then
        if primaryViolated rd result job then
          if !job.triedFallback then
            let job' := { job with triedFallback := true }
            let otherQuote := otherQuoteOf rd
            let otherDex := otherQuote.dex
            match env.exec2 with
            | Except.error e =>
              handleFailure maxRetries job' e evs0 1 [selCall, (otherDex, otherQuote)]
            | Except.ok fallbackResult =>
              if fallbackAccepted rd fallbackResult job then
                { events := evs0 ++ [Event.confirmed fallbackResult.txHash
                    fallbackResult.executedPrice fallbackResult.amountOut]
                  routeCalls := 1
                  execCalls := [selCall, (otherDex, otherQuote)]
                  caughtError := none
                  outcome := Outcome.confirmed fallbackResult.txHash
                    fallbackResult.executedPrice fallbackResult.amountOut }
              else
                handleFailure maxRetries job' "Slippage tolerance exceeded"
                  (evs0 ++ [Event.retrying "slippage" rd.selectedDex true (effSlippage job)])
                  1 [selCall, (otherDex, otherQuote)]
          else
            handleFailure maxRetries job "Slippage tolerance exceeded" evs0 1 [selCall]
        else
          { events := evs0 ++ [Event.confirmed result.txHash result.executedPrice
              result.amountOut]
            routeCalls := 1
            execCalls := [selCall]
            caughtError := none
            outcome := Outcome.confirmed result.txHash result.executedPrice result.amountOut }
      else
        handleFailure maxRetries job (failureMessage result) evs0 1 [selCall]

/-- Terminal outcomes of running a job to completion, or the job still
waiting if the supplied environment list runs out. -/
inductive RunOutcome
  | confirmedRun (txHash : Option String) (executedPrice : Option ℚ) (amountOut : Option ℚ)
  | failedRun (attempts : ℕ)
  | stillQueued (job : Job)
  deriving DecidableEq

/-- Lifetime trace of a job: the backoff delays between attempts, the
total number of attempts in which a fallback execution ran, and the
final outcome. -/
structure RunTrace where
  delays : List ℕ
  fallbackExecs : ℕ
  outcome : RunOutcome
  deriving DecidableEq

/-- Whether the attempt executed a fallback swap: exactly the attempts
whose executeSwap call list has a second entry. -/
def attemptFallbacks (r : ProcResult) : ℕ :=
  if 2 ≤ r.execCalls.length then 1 else 0

/-- Iterate processJob over the job lifetime: each element of the list
supplies the router behaviour of one attempt; a requeued job is re-run
on the remaining list (the delayed re-append to the queue). -/
def runJob (maxRetries : ℕ) (job : Job) : List Env → RunTrace
  | [] => { delays := [], fallbackExecs := 0, outcome := RunOutcome.stillQueued job }
  | e :: rest =>
    let r := processJob maxRetries job e
    match r.outcome with
    | Outcome.confirmed tx p a =>
      { delays := [], fallbackExecs := attemptFallbacks r
        outcome := RunOutcome.confirmedRun tx p a }
    | Outcome.failedTerminal n =>
      { delays := [], fallbackExecs := attemptFallbacks r
        outcome := RunOutcome.failedRun n }
    | Outcome.requeue job' d =>
      let t := runJob maxRetries job' rest
      { delays := d :: t.delays
        fallbackExecs := attemptFallbacks r + t.fallbackExecs
        outcome := t.outcome }

/-!
Scheduler model: the dispatch loop of QueueWorker (source lines 63-85)
together with the finally handler and the delayed requeue (lines 73-75
and 195-198).  Jobs are abstracted to their orderIds; the running set is
kept as a list whose length is the size the loop tests.
-/

/-- Scheduler state: the FIFO pending queue, the in-flight set and the
delayed-waiting-to-retry jobs. -/
structure SchedState where
  queue : List String
  running : List String
  delayed : List String
  deriving DecidableEq

/-- Atomic scheduler transitions, mirroring the single-writer dispatch
loop: enqueue appends; dispatch pops the head into the running set only
when the running set is below the concurrency ceiling; the two complete
actions model the finally handler removing the job from the running set
at pipeline completion, with completeRequeue parking the job in the
delayed set; timerFire models an elapsed backoff re-appending a delayed
job to the pending queue. -/
inductive SchedAction
  | enqueue (orderId : String)
  | dispatch
  | completeTerminal (orderId : String)
  | completeRequeue (orderId : String)
  | timerFire
  deriving DecidableEq

/-- One scheduler transition. -/
def schedStep (concurrency : ℕ) (s : SchedState) : SchedAction → SchedState
  | SchedAction.enqueue oid => { s with queue := s.queue ++ [oid] }
  | SchedAction.dispatch =>
    if s.running.length < concurrency then
      match s.queue with
      | [] => s
      | j :: rest => { s with queue := rest, running := j :: s.running }
    else s
  | SchedAction.completeTerminal oid => { s with running := s.running.erase oid }
  | SchedAction.completeRequeue oid =>
    { s with running := s.running.erase oid, delayed := s.delayed ++ [oid] }
  | SchedAction.timerFire =>
    match s.delayed with
    | [] => s
    | j :: rest => { s with delayed := rest, queue := s.queue ++ [j] }

/-- Run a list of scheduler actions. -/
def schedRun (concurrency : ℕ) (s : SchedState) (acts : List SchedAction) : SchedState :=
  acts.foldl (schedStep concurrency) s

/-- The scheduler starts with everything empty. -/
def schedInit : SchedState := { queue := [], running := [], delayed := [] }

/-!
PubSub model (src/unnamed/part_010): an EventEmitter keyed by topic
strings.  Handlers are abstracted to natural-number identities; the
listener array of a topic is a list in registration order.  Node's
removeListener scans the listener array from the end and removes at
most one occurrence of the handler per call.
-/

/-- Listener tables of the emitter: each topic's handler list in
registration order. -/
def Listeners : Type := String → List ℕ

/-- A fresh emitter has no listeners. -/
def emptyListeners : Listeners := fun _ => []

/-- Node removeListener semantics: remove the last occurrence of the
handler from the listener array, at most one per call. -/
def removeLastOcc (h : ℕ) (l : List ℕ) : List ℕ :=
  (l.reverse.erase h).reverse

/-- EventEmitter.on: append the handler to the topic's list. -/
def onListener (ps : Listeners) (topic : String) (h : ℕ) : Listeners :=
  fun t => if t = topic then ps t ++ [h] else ps t

/-- EventEmitter.off: remove one (the most recently added) occurrence of
the handler from the topic's list. -/
def offListener (ps : Listeners) (topic : String) (h : ℕ) : Listeners :=
  fun t => if t = topic then removeLastOcc h (ps t) else ps t

/-- Topic of an order (source: order:<orderId>). -/
def orderTopic (orderId : String) : String := "order:" ++ orderId

/-- PubSub.subscribeOrder registers the handler on the order topic. -/
def subscribeOrder (ps : Listeners) (orderId : String) (h : ℕ) : Listeners :=
  onListener ps (orderTopic orderId) h

/-- Calling the closure returned by subscribeOrder: off on the captured
topic and handler. -/
def unsubscribeOrder (ps : Listeners) (orderId : String) (h : ℕ) : Listeners :=
  offListener ps (orderTopic orderId) h

/-- Phases of the events of an attempt, in publication order. -/
def phaseList (r : ProcResult) : List Phase := r.events.map Event.phase

/-!
Concrete fixtures used by witnesses and counterexamples.  Prices follow
the SOL/USDC scenario of the test suite: expected output 100 on the
selected venue.
-/

/-- A market order for one SOL with the default slippage. -/
def dataD : OrderData :=
  { tokenIn := "SOL", tokenOut := "USDC", amountIn := 1, slippage := none }

/-- A freshly enqueued job. -/
def jobD : Job :=
  { orderId := "d1", orderData := dataD, attempts := 0, triedFallback := false }

/-- A job already on its third attempt. -/
def jobThird : Job :=
  { orderId := "d3", orderData := dataD, attempts := 2, triedFallback := false }

/-- Raydium quote: expected output 100. -/
def qR : DexQuote :=
  { dex := DexType.raydium, price := 100, amountOut := 100, fee := 3/1000 }

/-- Meteora quote: expected output 99. -/
def qM : DexQuote :=
  { dex := DexType.meteora, price := 99, amountOut := 99, fee := 1/500 }

/-- Routing decision selecting raydium. -/
def rdX : RoutingDecision :=
  { selectedDex := DexType.raydium, selectedQuote := qR, raydiumQuote := qR,
    meteoraQuote := qM }

/-- Environment whose execution call rejects. -/
def failEnv (rd : RoutingDecision) (msg : String) : Env :=
  { route := Except.ok rd, exec1 := Except.error msg, exec2 := Except.error msg }

/-- Successful primary execution with output 99.5, within the default
tolerance of the 100 expected. -/
def okRes : ExecutionResult :=
  { success := true, txHash := some "t1", executedPrice := some (199/200),
    amountOut := some (199/2), error := none }

/-- Successful primary execution with output 90, violating tolerance. -/
def badRes : ExecutionResult :=
  { success := true, txHash := some "t1", executedPrice := some (9/10),
    amountOut := some 90, error := none }

/-- Successful fallback execution with output 99.6, within tolerance of
the 99 the alternate quote expects. -/
def fbGood : ExecutionResult :=
  { success := true, txHash := some "t2", executedPrice := some 1,
    amountOut := some (996/10), error := none }

/-- Successful fallback execution with output 10, violating tolerance. -/
def fbBad : ExecutionResult :=
  { success := true, txHash := some "t3", executedPrice := some 1,
    amountOut := some 10, error := none }

/-- Reported execution failure. -/
def failRes : ExecutionResult :=
  { success := false, txHash := none, executedPrice := none, amountOut := none,
    error := some "insufficient liquidity" }

/-- Successful execution whose amountOut is missing. -/
def noneRes : ExecutionResult :=
  { success := true, txHash := some "t4", executedPrice := some 1,
    amountOut := none, error := none }

/-- Environment whose route lookup rejects. -/
def envRouteErr : Env :=
  { route := Except.error "network error", exec1 := Except.error "x",
    exec2 := Except.error "x" }

/-- Listener table with the same handler registered twice for one order. -/
def psDup : Listeners := subscribeOrder (subscribeOrder emptyListeners "j1" 7) "j1" 7

/-- Listener table with a single registration. -/
def psOne : Listeners := subscribeOrder emptyListeners "a" 3

end OrderEngine

/-!
Theorems.
-/

namespace OrderEngine

lemma handleFailure_execCalls (mr : ℕ) (job : Job) (m : String) (evs : List Event)
    (rc : ℕ) (ec : List (DexType × DexQuote)) :
    (handleFailure mr job m evs rc ec).execCalls = ec := by
  unfold handleFailure
  by_cases h : mr ≤ job.attempts + 1 <;> simp [h]

lemma handleFailure_routeCalls (mr : ℕ) (job : Job) (m : String) (evs : List Event)
    (rc : ℕ) (ec : List (DexType × DexQuote)) :
    (handleFailure mr job m evs rc ec).routeCalls = rc := by
  unfold handleFailure
  by_cases h : mr ≤ job.attempts + 1 <;> simp [h]

lemma handleFailure_caughtError (mr : ℕ) (job : Job) (m : String) (evs : List Event)
    (rc : ℕ) (ec : List (DexType × DexQuote)) :
    (handleFailure mr job m evs rc ec).caughtError = some m := by
  unfold handleFailure
  by_cases h : mr ≤ job.attempts + 1 <;> simp [h]

lemma handleFailure_not_confirmed (mr : ℕ) (job : Job) (m : String) (evs : List Event)
    (rc : ℕ) (ec : List (DexType × DexQuote)) (tx : Option String) (p a : Option ℚ) :
    (handleFailure mr job m evs rc ec).outcome ≠ Outcome.confirmed tx p a := by
  unfold handleFailure
  by_cases h : mr ≤ job.attempts + 1 <;> simp [h]

lemma handleFailure_outcome (mr : ℕ) (job : Job) (m : String) (evs : List Event)
    (rc : ℕ) (ec : List (DexType × DexQuote)) :
    (handleFailure mr job m evs rc ec).outcome =
      if mr ≤ job.attempts + 1 then Outcome.failedTerminal (job.attempts + 1)
      else Outcome.requeue { job with attempts := job.attempts + 1 }
        (2 ^ (job.attempts + 1) * 1000) := by
  unfold handleFailure
  by_cases h : mr ≤ job.attempts + 1 <;> simp [h]

lemma handleFailure_events (mr : ℕ) (job : Job) (m : String) (evs : List Event)
    (rc : ℕ) (ec : List (DexType × DexQuote)) :
    (handleFailure mr job m evs rc ec).events =
      if mr ≤ job.attempts + 1 then evs ++ [Event.failed m] else evs := by
  unfold handleFailure
  by_cases h : mr ≤ job.attempts + 1 <;> simp [h]

lemma schedStep_running_le (c : ℕ) (s : SchedState) (a : SchedAction)
    (h : s.running.length ≤ c) : ((schedStep c s a).running).length ≤ c := by
  cases a with
  | enqueue oid => simpa [schedStep] using h
  | dispatch =>
    simp only [schedStep]
    split
    · cases hq : s.queue with
      | nil => simpa using h
      | cons j rest => simp only [List.length_cons]; omega
    · exact h
  | completeTerminal oid =>
    simp only [schedStep]
    exact le_trans (List.Sublist.length_le (List.erase_sublist _ _)) h
  | completeRequeue oid =>
    simp only [schedStep]
    exact le_trans (List.Sublist.length_le (List.erase_sublist _ _)) h
  | timerFire =>
    simp only [schedStep]
    cases s.delayed with
    | nil => exact h
    | cons j rest => exact h

lemma schedRun_running_le (c : ℕ) (acts : List SchedAction) :
    ∀ s : SchedState, s.running.length ≤ c → ((schedRun c s acts).running).length ≤ c := by
  induction acts with
  | nil => intro s h; exact h
  | cons a rest ih =>
    intro s h
    exact ih (schedStep c s a) (schedStep_running_le c s a h)

/-- C7: the dispatch loop pops a pending job and marks it in-flight only
while the in-flight set is strictly below the concurrency ceiling, and a
requeued job is parked in the delayed set rather than the in-flight set,
so from the empty initial state the in-flight set never exceeds the
ceiling under any interleaving of scheduler actions. -/
theorem C7_concurrency_bound (c : ℕ) (acts : List SchedAction) :
    ((schedRun c schedInit acts).running).length ≤ c :=
  schedRun_running_le c acts schedInit (Nat.zero_le c)

lemma removeLastOcc_of_not_mem (h : ℕ) (l : List ℕ) (hm : h ∉ l) :
    removeLastOcc h l = l := by
  unfold removeLastOcc
  rw [List.erase_of_not_mem (by simpa using hm)]
  simp

lemma not_mem_removeLastOcc_of_count_le_one (h : ℕ) (l : List ℕ)
    (hc : l.count h ≤ 1) : h ∉ removeLastOcc h l := by
  unfold removeLastOcc
  intro hmem
  rw [List.mem_reverse] at hmem
  have h0 : (l.reverse.erase h).count h = 0 := by
    rw [List.count_erase_self, List.count_reverse]
    omega
  exact (List.count_eq_zero.mp h0) hmem

/-- C9 counterexample: with the same handler registered twice for the
same order, the second call of one unsubscribe closure removes the other
registration, so the second call is not side-effect-free. -/
theorem C9_counterexample :
    unsubscribeOrder (unsubscribeOrder psDup "j1" 7) "j1" 7 (orderTopic "j1") ≠
      unsubscribeOrder psDup "j1" 7 (orderTopic "j1") := by
  decide

/-- C9 amended: an unsubscribe call removes at most one (the most
recently added) occurrence of the handler, so whenever the handler is
registered at most once for the order topic, calling unsubscribe twice
leaves every topic exactly as a single call does. -/
theorem C9_unsub_idempotent (ps : Listeners) (oid : String) (h : ℕ)
    (hc : (ps (orderTopic oid)).count h ≤ 1) (t : String) :
    unsubscribeOrder (unsubscribeOrder ps oid h) oid h t =
      unsubscribeOrder ps oid h t := by
  unfold unsubscribeOrder offListener
  by_cases ht : t = orderTopic oid
  · simp only [ht, if_pos rfl]
    exact removeLastOcc_of_not_mem h _ (not_mem_removeLastOcc_of_count_le_one h _ hc)
  · simp [ht]

/-- C9 witness: the amended idempotence at a concrete single-registration
table. -/
theorem C9_witness :
    (psOne (orderTopic "a")).count 3 ≤ 1 ∧
      unsubscribeOrder (unsubscribeOrder psOne "a" 3) "a" 3 (orderTopic "a") =
        unsubscribeOrder psOne "a" 3 (orderTopic "a") :=
  ⟨by decide, C9_unsub_idempotent psOne "a" 3 (by decide) (orderTopic "a")⟩

lemma attemptFallbacks_le_one (r : ProcResult) : attemptFallbacks r ≤ 1 := by
  unfold attemptFallbacks
  split <;> omega

lemma processJob_execCalls_flag (mr : ℕ) (job : Job) (env : Env)
    (hf : job.triedFallback = true) :
    ((processJob mr job env).execCalls).length ≤ 1 := by
  obtain ⟨route, e1, e2⟩ := env
  cases route with
  | error e => simp [processJob, handleFailure_execCalls]
  | ok rd =>
    cases e1 with
    | error e => simp [processJob, handleFailure_execCalls]
    | ok result =>
      by_cases hs : result.success = true
      · by_cases hv : primaryViolated rd result job = true
        · simp [processJob, hs, hv, hf, handleFailure_execCalls]
        · simp [processJob, hs, hv]
      · simp [processJob, hs, handleFailure_execCalls]

lemma processJob_shape (mr : ℕ) (job : Job) (env : Env) :
    (∃ tx p a, (processJob mr job env).outcome = Outcome.confirmed tx p a) ∨
    ∃ b : Bool,
      ((processJob mr job env).outcome =
        if mr ≤ job.attempts + 1 then Outcome.failedTerminal (job.attempts + 1)
        else Outcome.requeue
          { job with
            attempts := job.attempts + 1
            triedFallback := job.triedFallback || b }
          (2 ^ (job.attempts + 1) * 1000)) ∧
      (2 ≤ ((processJob mr job env).execCalls).length → b = true) := by
  obtain ⟨route, e1, e2⟩ := env
  cases route with
  | error e =>
    exact Or.inr ⟨false, by simp [processJob, handleFailure_outcome],
      by simp [processJob, handleFailure_execCalls]⟩
  | ok rd =>
    cases e1 with
    | error e =>
      exact Or.inr ⟨false, by simp [processJob, handleFailure_outcome],
        by simp [processJob, handleFailure_execCalls]⟩
    | ok result =>
      by_cases hs : result.success = true
      · by_cases hv : primaryViolated rd result job = true
        · by_cases hf : job.triedFallback = true
          · refine Or.inr ⟨false, ?_, ?_⟩
            · simp [processJob, hs, hv, hf, handleFailure_outcome]
            · simp [processJob, hs, hv, hf, handleFailure_execCalls]
          · cases e2 with
            | error e =>
              have hf' : job.triedFallback = false := by simpa using hf
              refine Or.inr ⟨true, ?_, ?_⟩
              · simp [processJob, hs, hv, hf', handleFailure_outcome]
              · simp
            | ok fb =>
              by_cases ha : fallbackAccepted rd fb job = true
              · exact Or.inl ⟨fb.txHash, fb.executedPrice, fb.amountOut,
                  by simp [processJob, hs, hv, hf, ha]⟩
              · have hf' : job.triedFallback = false := by simpa using hf
                refine Or.inr ⟨true, ?_, ?_⟩
                · simp [processJob, hs, hv, hf', ha, handleFailure_outcome]
                · simp
        · exact Or.inl ⟨result.txHash, result.executedPrice, result.amountOut,
            by simp [processJob, hs, hv]⟩
      · exact Or.inr ⟨false, by simp [processJob, hs, handleFailure_outcome],
          by simp [processJob, hs, handleFailure_execCalls]⟩

lemma processJob_requeue_flag (mr : ℕ) (job : Job) (env : Env) (j' : Job) (d : ℕ)
    (hq : (processJob mr job env).outcome = Outcome.requeue j' d) :
    (job.triedFallback = true → j'.triedFallback = true) ∧
    (2 ≤ ((processJob mr job env).execCalls).length → j'.triedFallback = true) := by
  rcases processJob_shape mr job env with ⟨tx, p, a, hc⟩ | ⟨b, hsh, hlen⟩
  · rw [hc] at hq; simp at hq
  · by_cases hm : mr ≤ job.attempts + 1
    · rw [if_pos hm] at hsh; rw [hsh] at hq; simp at hq
    · rw [if_neg hm] at hsh
      rw [hsh] at hq
      obtain ⟨h1, -⟩ := Outcome.requeue.inj hq
      constructor
      · intro hf; rw [← h1]; simp [hf]
      · intro h2; rw [← h1]; simp [hlen h2]

lemma runJob_flag_true (mr : ℕ) :
    ∀ (envs : List Env) (job : Job), job.triedFallback = true →
      (runJob mr job envs).fallbackExecs = 0 := by
  intro envs
  induction envs with
  | nil => intro job hf; rfl
  | cons e rest ih =>
    intro job hf
    have hlen := processJob_execCalls_flag mr job e hf
    have hfb : attemptFallbacks (processJob mr job e) = 0 := by
      unfold attemptFallbacks
      split
      · omega
      · rfl
    simp only [runJob]
    cases hout : (processJob mr job e).outcome with
    | confirmed tx p a => simp [hfb]
    | failedTerminal n => simp [hfb]
    | requeue j' d =>
      have hflag := (processJob_requeue_flag mr job e j' d hout).1 hf
      simp [hfb, ih j' hflag]

/-- C2: across the whole lifetime of a job, however many times it is
requeued for retry, the fallback execution runs at most once: the
triedFallback flag is set before the fallback runs and is carried,
never reset, into every requeued copy of the job. -/
theorem C2_fallback_at_most_once (mr : ℕ) (job : Job) (envs : List Env) :
    (runJob mr job envs).fallbackExecs ≤ 1 := by
  induction envs generalizing job with
  | nil => simp [runJob]
  | cons e rest ih =>
    simp only [runJob]
    cases hout : (processJob mr job e).outcome with
    | confirmed tx p a => simpa using attemptFallbacks_le_one (processJob mr job e)
    | failedTerminal n => simpa using attemptFallbacks_le_one (processJob mr job e)
    | requeue j' d =>
      by_cases h2 : 2 ≤ ((processJob mr job e).execCalls).length
      · have hflag := (processJob_requeue_flag mr job e j' d hout).2 h2
        have hrest := runJob_flag_true mr rest j' hflag
        have hone : attemptFallbacks (processJob mr job e) = 1 := by
          unfold attemptFallbacks
          simp [h2]
        simp [hone, hrest]
      · have hzero : attemptFallbacks (processJob mr job e) = 0 := by
          unfold attemptFallbacks
          simp [h2]
        simpa [hzero] using ih j'

lemma processJob_attempts_spec (mr : ℕ) (job : Job) (env : Env) :
    (∀ j' d, (processJob mr job env).outcome = Outcome.requeue j' d →
      j'.attempts = job.attempts + 1 ∧ j'.attempts < mr ∧
        d = 2 ^ (job.attempts + 1) * 1000) ∧
    (∀ n, (processJob mr job env).outcome = Outcome.failedTerminal n →
      n = job.attempts + 1 ∧ mr ≤ n) := by
  rcases processJob_shape mr job env with ⟨tx, p, a, hc⟩ | ⟨b, hsh, -⟩
  · constructor
    · intro j' d hq; rw [hc] at hq; simp at hq
    · intro n hq; rw [hc] at hq; simp at hq
  · by_cases hm : mr ≤ job.attempts + 1
    · rw [if_pos hm] at hsh
      constructor
      · intro j' d hq; rw [hsh] at hq; simp at hq
      · intro n hq
        rw [hsh] at hq
        have hn := Outcome.failedTerminal.inj hq
        omega
    · rw [if_neg hm] at hsh
      constructor
      · intro j' d hq
        rw [hsh] at hq
        obtain ⟨h1, h2⟩ := Outcome.requeue.inj hq
        refine ⟨by rw [← h1], by rw [← h1]; simpa using hm, h2.symm⟩
      · intro n hq; rw [hsh] at hq; simp at hq

lemma runJob_failed_eq (mr : ℕ) :
    ∀ (envs : List Env) (job : Job), job.attempts < mr →
      ∀ n, (runJob mr job envs).outcome = RunOutcome.failedRun n → n = mr := by
  intro envs
  induction envs with
  | nil => intro job h n hq; simp [runJob] at hq
  | cons e rest ih =>
    intro job h n hq
    simp only [runJob] at hq
    cases hout : (processJob mr job e).outcome with
    | confirmed tx p a => rw [hout] at hq; simp at hq
    | failedTerminal k =>
      rw [hout] at hq
      simp at hq
      obtain ⟨hk, hle⟩ := (processJob_attempts_spec mr job e).2 k hout
      omega
    | requeue j' d =>
      rw [hout] at hq
      simp at hq
      obtain ⟨-, hlt, -⟩ := (processJob_attempts_spec mr job e).1 j' d hout
      exact ih j' hlt n hq

/-- C4: attempts increases by exactly one per failed attempt; after a
failure the job is terminally failed exactly when the incremented
counter reaches maxRetryAttempts, and otherwise it is requeued with a
backoff delay of 2 to the power of the incremented counter times 1000
milliseconds; a job entering with attempts below the budget can only
terminate in failure with attempts equal to the budget. -/
theorem C4_retry_accounting (mr : ℕ) (job : Job) (env : Env) (envs : List Env)
    (h : job.attempts < mr) :
    (∀ j' d, (processJob mr job env).outcome = Outcome.requeue j' d →
      j'.attempts = job.attempts + 1 ∧ j'.attempts < mr ∧
        d = 2 ^ (job.attempts + 1) * 1000) ∧
    (∀ n, (processJob mr job env).outcome = Outcome.failedTerminal n →
      n = job.attempts + 1 ∧ mr ≤ n) ∧
    (∀ n, (runJob mr job envs).outcome = RunOutcome.failedRun n → n = mr) :=
  ⟨(processJob_attempts_spec mr job env).1, (processJob_attempts_spec mr job env).2,
    runJob_failed_eq mr envs job h⟩

/-- C4 witness: a first failure requeues with attempts 1 and a 2 second
delay, and the concrete three-failure run terminates with attempts
equal to the budget. -/
theorem C4_witness :
    jobD.attempts < 3 ∧
      (({ jobD with attempts := 1 } : Job).attempts = jobD.attempts + 1 ∧
        ({ jobD with attempts := 1 } : Job).attempts < 3 ∧
        (2000 : ℕ) = 2 ^ (jobD.attempts + 1) * 1000) ∧
      (3 : ℕ) = 3 :=
  ⟨by decide,
    (C4_retry_accounting 3 jobD (failEnv rdX "e")
      [failEnv rdX "e", failEnv rdX "e", failEnv rdX "e"] (by decide)).1
      { jobD with attempts := 1 } 2000 (by decide),
    (C4_retry_accounting 3 jobD (failEnv rdX "e")
      [failEnv rdX "e", failEnv rdX "e", failEnv rdX "e"] (by decide)).2.2 3 (by decide)⟩

/-- C6 counterexample: three straight execution failures with three
retries allowed end in terminal failure after exactly three attempts,
but with only two backoff delays, 2s and 4s; no 8s delay occurs. -/
theorem C6_counterexample :
    (runJob 3 jobD [failEnv rdX "execution failed", failEnv rdX "execution failed",
        failEnv rdX "execution failed"]).outcome = RunOutcome.failedRun 3 ∧
      (runJob 3 jobD [failEnv rdX "execution failed", failEnv rdX "execution failed",
        failEnv rdX "execution failed"]).delays = [2000, 4000] ∧
      (runJob 3 jobD [failEnv rdX "execution failed", failEnv rdX "execution failed",
        failEnv rdX "execution failed"]).delays ≠ [2000, 4000, 8000] :=
  ⟨rfl, rfl, by decide⟩

/-- C6 amended: for any fresh job whose execution rejects three times in
a row with three retries allowed, the job ends terminally failed after
exactly three attempts, with retry delays of 2s and 4s between the
attempts and no fallback execution. -/
theorem C6_three_failures (oid : String) (d : OrderData)
    (rd1 rd2 rd3 : RoutingDecision) (m1 m2 m3 : String) :
    runJob 3 { orderId := oid, orderData := d, attempts := 0, triedFallback := false }
      [failEnv rd1 m1, failEnv rd2 m2, failEnv rd3 m3] =
      { delays := [2000, 4000], fallbackExecs := 0, outcome := RunOutcome.failedRun 3 } := by
  simp [runJob, processJob, handleFailure, failEnv, attemptFallbacks]

/-- C1: on a backend-reported success with a numeric amountOut, the
attempt completes as a plain success (confirmed with the primary
outcome's values and a single execution call) exactly when the amount
is not below expectedAmountOut times one minus the effective tolerance
min(0.20, baseTolerance * (1 + attempts * 0.5)), base defaulting to
0.01; otherwise it is treated as a slippage violation. -/
theorem C1_slippage_check (mr : ℕ) (job : Job) (rd : RoutingDecision)
    (result : ExecutionResult) (e2 : Except String ExecutionResult) (v : ℚ)
    (hs : result.success = true) (ha : result.amountOut = some v) :
    ((processJob mr job
        { route := Except.ok rd, exec1 := Except.ok result, exec2 := e2 }).outcome =
          Outcome.confirmed result.txHash result.executedPrice result.amountOut ∧
      (processJob mr job
        { route := Except.ok rd, exec1 := Except.ok result, exec2 := e2 }).execCalls =
          [(rd.selectedDex, rd.selectedQuote)]) ↔
      ¬ v < rd.selectedQuote.amountOut *
        (1 - min (1/5 : ℚ)
          ((job.orderData.slippage.getD (1/100)) * (1 + (job.attempts : ℚ) * (1/2)))) := by
  have heff : min (1/5 : ℚ) ((job.orderData.slippage.getD (1/100)) *
      (1 + (job.attempts : ℚ) * (1/2))) = effSlippage job := rfl
  rw [heff]
  have hvd : primaryViolated rd result job =
      decide (v < rd.selectedQuote.amountOut * (1 - effSlippage job)) := by
    simp [primaryViolated, ha]
  by_cases hlt : v < rd.selectedQuote.amountOut * (1 - effSlippage job)
  · refine iff_of_false ?_ (not_not_intro hlt)
    have hviol : primaryViolated rd result job = true := by
      rw [hvd]; simpa using hlt
    by_cases hf : job.triedFallback = true
    · rintro ⟨h1, -⟩
      revert h1
      simp [processJob, hs, hviol, hf, handleFailure_not_confirmed]
    · cases e2 with
      | error e =>
        rintro ⟨h1, -⟩
        revert h1
        simp [processJob, hs, hviol, hf, handleFailure_not_confirmed]
      | ok fb =>
        by_cases hacc : fallbackAccepted rd fb job = true
        · rintro ⟨-, h2⟩
          revert h2
          simp [processJob, hs, hviol, hf, hacc]
        · rintro ⟨h1, -⟩
          revert h1
          simp [processJob, hs, hviol, hf, hacc, handleFailure_not_confirmed]
  · refine iff_of_true ?_ hlt
    have hviol : primaryViolated rd result job = false := by
      rw [hvd]; simpa using hlt
    exact ⟨by simp [processJob, hs, hviol], by simp [processJob, hs, hviol]⟩

/-- C1 witness: the Scenario A numbers, expected 100, actual 99.5,
default tolerance, plain success. -/
theorem C1_witness :
    (processJob 3 jobD
        { route := Except.ok rdX, exec1 := Except.ok okRes, exec2 := Except.error "e" }).outcome =
        Outcome.confirmed okRes.txHash okRes.executedPrice okRes.amountOut ∧
      (processJob 3 jobD
        { route := Except.ok rdX, exec1 := Except.ok okRes, exec2 := Except.error "e" }).execCalls =
        [(rdX.selectedDex, rdX.selectedQuote)] :=
  (C1_slippage_check 3 jobD rdX okRes (Except.error "e") (199/2) rfl rfl).mpr
    (by simp [rdX, qR, qM, jobD, dataD, min_def]; norm_num)

lemma fallbackAccepted_iff (rd : RoutingDecision) (fb : ExecutionResult) (job : Job) :
    fallbackAccepted rd fb job = true ↔
      (fb.success = true ∧ ∃ w, fb.amountOut = some w ∧
        (otherQuoteOf rd).amountOut * (1 - effSlippage job) ≤ w) := by
  unfold fallbackAccepted
  cases ho : fb.amountOut <;> simp [ho]

/-- C3: on a slippage violation with triedFallback still false and a
fallback call that returns an outcome, the attempt performs exactly the
two executions, primary then one against the alternate venue with the
alternate quote of the same routing decision and no second route
lookup; if the fallback outcome passes the slippage check at the same
effective tolerance the job confirms with the fallback's txHash,
executedPrice and amountOut, and otherwise the attempt falls into the
retry handler with the slippage error reason and does not confirm. -/
theorem C3_fallback_behaviour (mr : ℕ) (job : Job) (rd : RoutingDecision)
    (result fb : ExecutionResult)
    (hs : result.success = true) (hv : primaryViolated rd result job = true)
    (htf : job.triedFallback = false) :
    (processJob mr job
        { route := Except.ok rd, exec1 := Except.ok result, exec2 := Except.ok fb }).routeCalls = 1 ∧
    (processJob mr job
        { route := Except.ok rd, exec1 := Except.ok result, exec2 := Except.ok fb }).execCalls =
      [(rd.selectedDex, rd.selectedQuote), ((otherQuoteOf rd).dex, otherQuoteOf rd)] ∧
    ((fb.success = true ∧ ∃ w, fb.amountOut = some w ∧
        (otherQuoteOf rd).amountOut * (1 - effSlippage job) ≤ w) →
      (processJob mr job
        { route := Except.ok rd, exec1 := Except.ok result, exec2 := Except.ok fb }).outcome =
        Outcome.confirmed fb.txHash fb.executedPrice fb.amountOut) ∧
    (¬ (fb.success = true ∧ ∃ w, fb.amountOut = some w ∧
        (otherQuoteOf rd).amountOut * (1 - effSlippage job) ≤ w) →
      (processJob mr job
        { route := Except.ok rd, exec1 := Except.ok result, exec2 := Except.ok fb }).caughtError =
          some "Slippage tolerance exceeded" ∧
      ∀ tx p a, (processJob mr job
        { route := Except.ok rd, exec1 := Except.ok result, exec2 := Except.ok fb }).outcome ≠
          Outcome.confirmed tx p a) := by
  by_cases hacc : fallbackAccepted rd fb job = true
  · have hacc' := (fallbackAccepted_iff rd fb job).mp hacc
    refine ⟨?_, ?_, fun _ => ?_, fun hn => absurd hacc' hn⟩
    · simp [processJob, hs, hv, htf, hacc]
    · simp [processJob, hs, hv, htf, hacc]
    · simp [processJob, hs, hv, htf, hacc]
  · have hacc' : ¬ (fb.success = true ∧ ∃ w, fb.amountOut = some w ∧
        (otherQuoteOf rd).amountOut * (1 - effSlippage job) ≤ w) :=
      fun h => hacc ((fallbackAccepted_iff rd fb job).mpr h)
    refine ⟨?_, ?_, fun h => absurd h hacc', fun _ => ⟨?_, ?_⟩⟩
    · simp [processJob, hs, hv, htf, hacc, handleFailure_routeCalls]
    · simp [processJob, hs, hv, htf, hacc, handleFailure_execCalls]
    · simp [processJob, hs, hv, htf, hacc, handleFailure_caughtError]
    · intro tx p a
      simp [processJob, hs, hv, htf, hacc, handleFailure_not_confirmed]

/-- C3 witness: the Scenario B numbers; primary at 90 violates, fallback
at 99.6 on the alternate venue passes and the job confirms with the
fallback outcome. -/
theorem C3_witness :
    (processJob 3 jobD
        { route := Except.ok rdX, exec1 := Except.ok badRes, exec2 := Except.ok fbGood }).outcome =
        Outcome.confirmed fbGood.txHash fbGood.executedPrice fbGood.amountOut ∧
      (processJob 3 jobD
        { route := Except.ok rdX, exec1 := Except.ok badRes, exec2 := Except.ok fbGood }).routeCalls = 1 :=
  ⟨(C3_fallback_behaviour 3 jobD rdX badRes fbGood rfl
      (by simp [primaryViolated, badRes, rdX, qR, qM, jobD, dataD, effSlippage, min_def]; norm_num)
      rfl).2.2.1
      ⟨rfl, 996/10, rfl,
        by simp [otherQuoteOf, rdX, qR, qM, jobD, dataD, effSlippage, min_def]; norm_num⟩,
    (C3_fallback_behaviour 3 jobD rdX badRes fbGood rfl
      (by simp [primaryViolated, badRes, rdX, qR, qM, jobD, dataD, effSlippage, min_def]; norm_num)
      rfl).1⟩

/-- C10: a backend-reported success without a numeric amountOut is
treated as a slippage violation: the job never confirms with an absent
amount; with triedFallback false the fallback execution runs (two
executeSwap calls), and with triedFallback true the attempt goes to the
retry handler with the slippage error reason. -/
theorem C10_missing_amount (mr : ℕ) (job : Job) (rd : RoutingDecision)
    (result : ExecutionResult) (e2 : Except String ExecutionResult)
    (hs : result.success = true) (ha : result.amountOut = none) :
    (∀ tx p, (processJob mr job
        { route := Except.ok rd, exec1 := Except.ok result, exec2 := e2 }).outcome ≠
          Outcome.confirmed tx p none) ∧
    (job.triedFallback = false →
      ((processJob mr job
        { route := Except.ok rd, exec1 := Except.ok result, exec2 := e2 }).execCalls).length = 2) ∧
    (job.triedFallback = true →
      (processJob mr job
        { route := Except.ok rd, exec1 := Except.ok result, exec2 := e2 }).caughtError =
          some "Slippage tolerance exceeded") := by
  have hviol : primaryViolated rd result job = true := by
    simp [primaryViolated, ha]
  refine ⟨?_, ?_, ?_⟩
  · intro tx p
    by_cases hf : job.triedFallback = true
    · simp [processJob, hs, hviol, hf, handleFailure_not_confirmed]
    · cases e2 with
      | error e => simp [processJob, hs, hviol, hf, handleFailure_not_confirmed]
      | ok fb =>
        by_cases hacc : fallbackAccepted rd fb job = true
        · obtain ⟨w, hw⟩ : ∃ w, fb.amountOut = some w := by
            revert hacc
            unfold fallbackAccepted
            cases fb.amountOut <;> simp
          simp [processJob, hs, hviol, hf, hacc, hw]
        · simp [processJob, hs, hviol, hf, hacc, handleFailure_not_confirmed]
  · intro hf
    cases e2 with
    | error e => simp [processJob, hs, hviol, hf, handleFailure_execCalls]
    | ok fb =>
      by_cases hacc : fallbackAccepted rd fb job = true
      · simp [processJob, hs, hviol, hf, hacc]
      · simp [processJob, hs, hviol, hf, hacc, handleFailure_execCalls]
  · intro hf
    simp [processJob, hs, hviol, hf, handleFailure_caughtError]

/-- C10 witness: success with missing amountOut on a fresh job runs the
fallback and never confirms with an absent amount. -/
theorem C10_witness :
    ((processJob 3 jobD
        { route := Except.ok rdX, exec1 := Except.ok noneRes, exec2 := Except.ok fbBad }).outcome ≠
        Outcome.confirmed none none none) ∧
      ((processJob 3 jobD
        { route := Except.ok rdX, exec1 := Except.ok noneRes, exec2 := Except.ok fbBad }).execCalls).length = 2 :=
  ⟨(C10_missing_amount 3 jobD rdX noneRes (Except.ok fbBad) rfl rfl).1 none none,
    (C10_missing_amount 3 jobD rdX noneRes (Except.ok fbBad) rfl rfl).2.1 rfl⟩

lemma retrying_mem_handleFailure (mr : ℕ) (job : Job) (m : String) (evs : List Event)
    (rc : ℕ) (ec : List (DexType × DexQuote)) :
    Phase.retrying ∈ phaseList (handleFailure mr job m evs rc ec) ↔
      Phase.retrying ∈ evs.map Event.phase := by
  unfold phaseList
  rw [handleFailure_events]
  by_cases h : mr ≤ job.attempts + 1 <;> simp [h, Event.phase]

/-- C5 counterexample: a backend-reported execution failure on a fresh
job with budget left is requeued for retry without any retrying status
event being published. -/
theorem C5_counterexample :
    (processJob 3 jobD
        { route := Except.ok rdX, exec1 := Except.ok failRes, exec2 := Except.error "x" }).outcome =
        Outcome.requeue { jobD with attempts := 1 } 2000 ∧
      Phase.retrying ∉ phaseList (processJob 3 jobD
        { route := Except.ok rdX, exec1 := Except.ok failRes, exec2 := Except.error "x" }) := by
  exact ⟨by decide, by decide⟩

/-- C5 amended: a retrying status event is published exactly when the
attempt hit a slippage violation on a reported success, the job had not
yet tried the fallback, the fallback call returned an outcome rather
than throwing, and that outcome was not accepted; every other failure
cause (routing errors, reported execution failures, thrown executor
errors, violations with the fallback already spent) reaches the retry
handler without a retrying event. -/
theorem C5_retrying_iff (mr : ℕ) (job : Job) (env : Env) :
    Phase.retrying ∈ phaseList (processJob mr job env) ↔
      ∃ rd result fb, env.route = Except.ok rd ∧ env.exec1 = Except.ok result ∧
        result.success = true ∧ primaryViolated rd result job = true ∧
        job.triedFallback = false ∧ env.exec2 = Except.ok fb ∧
        fallbackAccepted rd fb job = false := by
  obtain ⟨route, e1, e2⟩ := env
  cases route with
  | error e =>
    refine iff_of_false ?_ ?_
    · simp [processJob, retrying_mem_handleFailure, Event.phase]
    · rintro ⟨rd', result', fb', hr, -⟩
      exact absurd hr (by simp)
  | ok rd =>
    cases e1 with
    | error e =>
      refine iff_of_false ?_ ?_
      · simp [processJob, retrying_mem_handleFailure, Event.phase]
      · rintro ⟨rd', result', fb', -, he1, -⟩
        exact absurd he1 (by simp)
    | ok result =>
      by_cases hs : result.success = true
      · by_cases hv : primaryViolated rd result job = true
        · by_cases hf : job.triedFallback = true
          · refine iff_of_false ?_ ?_
            · simp [processJob, hs, hv, hf, retrying_mem_handleFailure, Event.phase]
            · rintro ⟨rd', result', fb', hr, he1, -, -, htf', -⟩
              rw [htf'] at hf
              simp at hf
          · cases e2 with
            | error e2m =>
              refine iff_of_false ?_ ?_
              · simp [processJob, hs, hv, hf, retrying_mem_handleFailure, Event.phase]
              · rintro ⟨rd', result', fb', -, -, -, -, -, he2, -⟩
                exact absurd he2 (by simp)
            | ok fb =>
              by_cases hacc : fallbackAccepted rd fb job = true
              · refine iff_of_false ?_ ?_
                · simp [processJob, hs, hv, hf, hacc, phaseList, Event.phase]
                · rintro ⟨rd', result', fb', hr, he1, -, -, -, he2, hacc'⟩
                  obtain rfl := Except.ok.inj hr
                  obtain rfl := Except.ok.inj he1
                  obtain rfl := Except.ok.inj he2
                  rw [hacc'] at hacc
                  simp at hacc
              · refine iff_of_true ?_ ?_
                · simp [processJob, hs, hv, hf, hacc, retrying_mem_handleFailure,
                    Event.phase]
                · exact ⟨rd, result, fb, rfl, rfl, hs, hv, by simpa using hf, rfl,
                    by simpa using hacc⟩
        · refine iff_of_false ?_ ?_
          · simp [processJob, hs, hv, phaseList, Event.phase]
          · rintro ⟨rd', result', fb', hr, he1, -, hv', -⟩
            obtain rfl := Except.ok.inj hr
            obtain rfl := Except.ok.inj he1
            exact absurd hv' hv
      · refine iff_of_false ?_ ?_
        · simp [processJob, hs, retrying_mem_handleFailure, Event.phase]
        · rintro ⟨rd', result', fb', hr, he1, hs', -⟩
          obtain rfl := Except.ok.inj he1
          exact absurd hs' hs

/-- C8 counterexample: a routing error on a job whose next failure
exhausts the budget publishes routing and then terminal failed, skipping
the building and submitted phases entirely. -/
theorem C8_counterexample :
    phaseList (processJob 3 jobThird envRouteErr) = [Phase.routing, Phase.failed] ∧
      Phase.building ∉ phaseList (processJob 3 jobThird envRouteErr) ∧
      Phase.submitted ∉ phaseList (processJob 3 jobThird envRouteErr) := by
  exact ⟨by decide, by decide, by decide⟩

/-- C8 amended: within one attempt the published phases always form one
of seven monotone sequences: routing alone (route lookup threw,
requeued), routing then failed (route lookup threw, budget exhausted),
routing twice then building and submitted (execution-stage failure,
requeued), the same followed by failed, by confirmed, by retrying
(fallback miss, requeued), or by retrying then failed; phases never
reorder, a terminal event is always last and unique, and routing is
published twice whenever the route lookup succeeds. -/
theorem C8_phase_shapes (mr : ℕ) (job : Job) (env : Env) :
    phaseList (processJob mr job env) ∈
      [[Phase.routing],
       [Phase.routing, Phase.failed],
       [Phase.routing, Phase.routing, Phase.building, Phase.submitted],
       [Phase.routing, Phase.routing, Phase.building, Phase.submitted, Phase.failed],
       [Phase.routing, Phase.routing, Phase.building, Phase.submitted, Phase.confirmed],
       [Phase.routing, Phase.routing, Phase.building, Phase.submitted, Phase.retrying],
       [Phase.routing, Phase.routing, Phase.building, Phase.submitted, Phase.retrying,
        Phase.failed]] := by
  obtain ⟨route, e1, e2⟩ := env
  cases route with
  | error e =>
    by_cases hm : mr ≤ job.attempts + 1 <;>
      simp [processJob, phaseList, handleFailure_events, hm, Event.phase]
  | ok rd =>
    cases e1 with
    | error e =>
      by_cases hm : mr ≤ job.attempts + 1 <;>
        simp [processJob, phaseList, handleFailure_events, hm, Event.phase]
    | ok result =>
      by_cases hs : result.success = true
      · by_cases hv : primaryViolated rd result job = true
        · by_cases hf : job.triedFallback = true
          · by_cases hm : mr ≤ job.attempts + 1 <;>
              simp [processJob, hs, hv, hf, phaseList, handleFailure_events, hm,
                Event.phase]
          · cases e2 with
            | error e2m =>
              by_cases hm : mr ≤ job.attempts + 1 <;>
                simp [processJob, hs, hv, hf, phaseList, handleFailure_events, hm,
                  Event.phase]
            | ok fb =>
              by_cases hacc : fallbackAccepted rd fb job = true
              · simp [processJob, hs, hv, hf, hacc, phaseList, Event.phase]
              · by_cases hm : mr ≤ job.attempts + 1 <;>
                  simp [processJob, hs, hv, hf, hacc, phaseList, handleFailure_events,
                    hm, Event.phase]
        · simp [processJob, hs, hv, phaseList, Event.phase]
      · by_cases hm : mr ≤ job.attempts + 1 <;>
          simp [processJob, hs, phaseList, handleFailure_events, hm, Event.phase]

end OrderEngine
